import Mathlib

set_option autoImplicit false
set_option maxRecDepth 10000

/-!
Verification development for the Kotlin-to-JNI glue generator
(scripts/jni_on_load_generator.py).

Python strings are embedded as `List Char` (ASCII fragment of Python's
Unicode semantics; every input of interest is ASCII).  Each Python
function of the generator is translated into an executable Lean
definition of the same name; regex scanning is translated into explicit
maximal-munch matchers that follow the structure of the concrete
patterns appearing in the source (all quantifiers in those patterns
range over pairwise disjoint character classes, so greedy matching
needs no general backtracking beyond the explicit alternatives coded
below).  Code paths where the Python raises an exception are modelled
with `Except`.
-/

abbrev Str := List Char

/-- Python `\s` / `str.strip()` whitespace (ASCII fragment). -/
def isPySpace (c : Char) : Bool :=
  c = ' ' || c = '\t' || c = '\n' || c = '\r' || c = '\x0b' || c = '\x0c'

/-- Python `\w` word characters (ASCII fragment). -/
def isPyWord (c : Char) : Bool :=
  c.isAlphanum || c = '_'

/-- Match a literal at the head of the input; on success return the rest. -/
def litM : Str → Str → Option Str
  | [], s => some s
  | _ :: _, [] => none
  | c :: cs, d :: ds => if c = d then litM cs ds else none

/-- Greedy `p+`: at least one character satisfying `p`; returns (munched, rest). -/
def tw1 (p : Char → Bool) : Str → Option (Str × Str)
  | [] => none
  | c :: cs => if p c then some (c :: cs.takeWhile p, cs.dropWhile p) else none

/-- Python `str.strip()` with no arguments. -/
def pyStrip (s : Str) : Str :=
  ((s.dropWhile isPySpace).reverse.dropWhile isPySpace).reverse

/-- Python `needle in hay` on strings (substring containment). -/
def pyIn (needle : Str) : Str → Bool
  | [] => needle.isEmpty
  | c :: cs => (litM needle (c :: cs)).isSome || pyIn needle cs

/-- Python `str.startswith`. -/
def pyStartsWith (pat s : Str) : Bool := (litM pat s).isSome

/-- Python `str.endswith`. -/
def pyEndsWith (suf s : Str) : Bool := (litM suf.reverse s.reverse).isSome

/-- Python `str.rfind` (index of last occurrence, `-1` when absent). -/
def pyRFind (c : Char) (s : Str) : Int :=
  match s.reverse.findIdx? (fun d => d = c) with
  | some j => ((s.length - 1 - j : Nat) : Int)
  | none => -1

def pySplitAux (sep : Char) : Str → Str → List Str
  | [], cur => cur.reverse :: []
  | c :: cs, cur =>
    if c = sep then cur.reverse :: pySplitAux sep cs []
    else pySplitAux sep cs (c :: cur)

/-- Python `str.split(sep)` for a one-character separator. -/
def pySplit (sep : Char) (s : Str) : List Str := pySplitAux sep s []

/-- Concatenation of a list of strings (Python `"".join`). -/
def joinL {α : Type} : List (List α) → List α
  | [] => []
  | l :: rest => l ++ joinL rest

/-- Decimal rendering of a natural number, as Python `str(n)` / f-string interpolation. -/
def natStr (n : Nat) : Str := (Nat.repr n).data

/-! ## kotlin_to_jni_type (lines 49-100) -/

def arrayLit : Str := "Array".data

def qMark : Str := "?".data

def unitLit : Str := "Unit".data

/-- The string `"IFDJZBSC"` used by the `base_sig in "IFDJZBSC"` membership test. -/
def primCodes : Str := "IFDJZBSC".data

/-- The `mapping` dict of `kotlin_to_jni_type`, in source order. -/
def jniMapping : List (Str × Str) :=
  (r"Int".data, r"I".data) :: (r"Float".data, r"F".data) :: (r"Double".data, r"D".data) ::
  (r"Long".data, r"J".data) :: (r"Boolean".data, r"Z".data) :: (r"Byte".data, r"B".data) ::
  (r"Short".data, r"S".data) :: (r"Char".data, r"C".data) ::
  (r"String".data, r"Ljava/lang/String;".data) :: (r"Unit".data, r"V".data) :: []

/-- The `wrapper_mapping` dict of `kotlin_to_jni_type`, in source order. -/
def wrapperMapping : List (Str × Str) :=
  (r"I".data, r"Ljava/lang/Integer;".data) :: (r"F".data, r"Ljava/lang/Float;".data) ::
  (r"D".data, r"Ljava/lang/Double;".data) :: (r"J".data, r"Ljava/lang/Long;".data) ::
  (r"Z".data, r"Ljava/lang/Boolean;".data) :: (r"B".data, r"Ljava/lang/Byte;".data) ::
  (r"S".data, r"Ljava/lang/Short;".data) :: (r"C".data, r"Ljava/lang/Character;".data) :: []

/-- Association-list lookup, modelling Python dict access (dict keys are distinct). -/
def lookupStr {α : Type} (k : Str) : List (Str × α) → Option α
  | [] => none
  | kv :: rest => if kv.1 = k then some kv.2 else lookupStr k rest

/-- The non-array branch of `kotlin_to_jni_type`: `mapping.get`, the
`if not base_sig` truthiness test, and the nullable-primitive boxing.
The `wrapper_mapping[base_sig]` dict indexing cannot miss (every
single-letter substring outcome of the guard is a wrapper key), so the
unreachable `KeyError` is modelled as `none`. -/
def kjtBase (ktype : Str) (nullable : Bool) : Option Str :=
  match lookupStr ktype jniMapping with
  | none => none
  | some base_sig =>
    if base_sig.isEmpty then none
    else if nullable && pyIn base_sig primCodes then
      match lookupStr base_sig wrapperMapping with
      | some w => some w
      | none => none
    else some base_sig

/-- Fuel-indexed body of `kotlin_to_jni_type`.  Each recursive step strips
the 5-character `"Array"` suffix, so `ktype.length` steps of fuel always
suffice; with fuel `0` the string is empty and cannot end in `"Array"`,
so going straight to the non-array branch is exact. -/
def kjtAux : Nat → Str → Bool → Option Str
  | 0, ktype, nullable => kjtBase ktype nullable
  | fuel + 1, ktype, nullable =>
    if pyEndsWith arrayLit ktype then
      match kjtAux fuel (ktype.take (ktype.length - 5)) false with
      | some element_sig => if element_sig.isEmpty then none else some ('[' :: element_sig)
      | none => none
    else kjtBase ktype nullable

/-- `kotlin_to_jni_type(ktype, nullable)` (lines 49-100): `None` is `none`.
The array branch recurses on `ktype[:-5]` with `nullable=False` and, when
the element signature is truthy, prefixes `"["`. -/
def kotlin_to_jni_type (ktype : Str) (nullable : Bool) : Option Str :=
  kjtAux ktype.length ktype nullable

/-- `parse_kotlin_type` (lines 102-118): strip, then peel one trailing `?`. -/
def parse_kotlin_type (type_str : Str) : Str × Bool :=
  let t := pyStrip type_str
  if pyEndsWith qMark t then (t.take (t.length - 1), true) else (t, false)

/-! ## The @NativeExport method pattern (lines 209-213)

`(?:@JvmStatic\s*)?@NativeExport\s*fun\s+(?P<name>\w+)\s*\((?P<params>[^)]*)\)\s*(?::\s*(?P<ret>[^{\s]+))?`

A match yields (name, params, optional ret). -/

def jvmStaticLit : Str := "@JvmStatic".data

def nativeExportAnn : Str := "@NativeExport".data

def funKw : Str := "fun".data

/-- Character class `[^{\s]` of the return-type group. -/
def isRetChar (c : Char) : Bool := !(c = '\x7b' || isPySpace c)

/-- Matcher for the part of the method pattern after `@NativeExport`:
`\s*fun\s+(\w+)\s*\(([^)]*)\)\s*(?::\s*([^{\s]+))?`.  Returns the three
groups and the rest of the input after the match.  When the optional
return group fails, the regex backtracks to the empty alternative and
the match ends right after the greedy `\s*` that follows `\)`. -/
def methodTail (s0 : Str) : Option ((Str × Str × Option Str) × Str) :=
  let s1 := s0.dropWhile isPySpace
  match litM funKw s1 with
  | none => none
  | some s2 =>
    match tw1 isPySpace s2 with
    | none => none
    | some (_, s3) =>
      match tw1 isPyWord s3 with
      | none => none
      | some (name, s4) =>
        let s5 := s4.dropWhile isPySpace
        match litM ("(".data) s5 with
        | none => none
        | some s6 =>
          let params := s6.takeWhile (fun c => c ≠ ')')
          let s7 := s6.dropWhile (fun c => c ≠ ')')
          match litM (")".data) s7 with
          | none => none
          | some s8 =>
            let s9 := s8.dropWhile isPySpace
            match litM (":".data) s9 with
            | none => some ((name, params, none), s9)
            | some s10 =>
              let s11 := s10.dropWhile isPySpace
              match tw1 isRetChar s11 with
              | none => some ((name, params, none), s9)
              | some (ret, s12) => some ((name, params, some ret), s12)

/-- Try the full method pattern at the current position: first the
alternative with the optional `@JvmStatic\s*` present, then without. -/
def methodMatchAt (s : Str) : Option ((Str × Str × Option Str) × Str) :=
  match (match litM jvmStaticLit s with
         | none => none
         | some t1 =>
           match litM nativeExportAnn (t1.dropWhile isPySpace) with
           | none => none
           | some t2 => methodTail t2) with
  | some r => some r
  | none =>
    match litM nativeExportAnn s with
    | none => none
    | some t => methodTail t

/-- `re.finditer` for the method pattern: leftmost non-overlapping matches,
resuming after each match's end.  Every match consumes at least the 13
characters of `@NativeExport`, so fuel `s.length + 1` never runs out. -/
def methodScanAux : Nat → Str → List (Str × Str × Option Str)
  | 0, _ => []
  | fuel + 1, s =>
    match methodMatchAt s with
    | some (m, rest) => m :: methodScanAux fuel rest
    | none =>
      match s with
      | [] => []
      | _ :: cs => methodScanAux fuel cs

def methodScan (s : Str) : List (Str × Str × Option Str) :=
  methodScanAux (s.length + 1) s

/-! ## Class-declaration patterns of extract_package_and_class (lines 131-155)

Pattern 0: `(?:^|\n)\s*(?:(?:public|private|internal|protected)\s+)?(?:class|object)\s+(\w+)`
Pattern 1: `(?:^|\n)\s*(?:(?:abstract|final|open|sealed|data|inner)\s+)*(?:class|object)\s+(\w+)`
Pattern 2: `(?<!@\w{0,20})\b(?:class|object)\s+(\w+)` — a variable-width
look-behind, which CPython's `re` refuses to compile: reaching it raises
`re.error("look-behind requires fixed-width pattern")`.  All three are
searched with `re.MULTILINE`, which makes `^` match at the start of the
content and after every newline. -/

/-- `(?:class|object)\s+(\w+)`: the tail shared by the class patterns;
returns the captured group and the rest after the match. -/
def classWordTail (s : Str) : Option (Str × Str) :=
  match (match litM ("class".data) s with
         | none => none
         | some t =>
           match tw1 isPySpace t with
           | none => none
           | some (_, t2) => tw1 isPyWord t2) with
  | some r => some r
  | none =>
    match litM ("object".data) s with
    | none => none
    | some t =>
      match tw1 isPySpace t with
      | none => none
      | some (_, t2) => tw1 isPyWord t2

/-- One `(?:public|private|internal|protected)\s+` step (alternatives in
source order; their first characters make at most one applicable). -/
def visKw (s : Str) : Option Str :=
  match (litM ("public".data) s) with
  | some t => (tw1 isPySpace t).map (fun r => r.2)
  | none =>
    match litM ("private".data) s with
    | some t => (tw1 isPySpace t).map (fun r => r.2)
    | none =>
      match litM ("internal".data) s with
      | some t => (tw1 isPySpace t).map (fun r => r.2)
      | none =>
        match litM ("protected".data) s with
        | some t => (tw1 isPySpace t).map (fun r => r.2)
        | none => none

/-- Body of pattern 0 after the `^`/`\n` anchor: `\s*` then the optional
visibility modifier (with regex backtracking to the empty alternative
when the continuation fails) then `(?:class|object)\s+(\w+)`. -/
def p1Body (s : Str) : Option (Str × Str) :=
  let s1 := s.dropWhile isPySpace
  match visKw s1 with
  | some s2 =>
    match classWordTail s2 with
    | some r => some r
    | none => classWordTail s1
  | none => classWordTail s1

/-- One `(?:abstract|final|open|sealed|data|inner)\s+` step (alternatives
in source order; distinct first letters make at most one applicable). -/
def modKw (s : Str) : Option Str :=
  match litM ("abstract".data) s with
  | some t => (tw1 isPySpace t).map (fun r => r.2)
  | none =>
    match litM ("final".data) s with
    | some t => (tw1 isPySpace t).map (fun r => r.2)
    | none =>
      match litM ("open".data) s with
      | some t => (tw1 isPySpace t).map (fun r => r.2)
      | none =>
        match litM ("sealed".data) s with
        | some t => (tw1 isPySpace t).map (fun r => r.2)
        | none =>
          match litM ("data".data) s with
          | some t => (tw1 isPySpace t).map (fun r => r.2)
          | none =>
            match litM ("inner".data) s with
            | some t => (tw1 isPySpace t).map (fun r => r.2)
            | none => none

/-- Positions reachable by iterating the modifier step 0, 1, 2, … times,
in that order.  Each step consumes at least 5 characters, so fuel
`s.length + 1` never runs out. -/
def modChainAux : Nat → Str → List Str
  | 0, s => s :: []
  | fuel + 1, s =>
    match modKw s with
    | some s2 => s :: modChainAux fuel s2
    | none => s :: []

/-- First position (in the given order) from which `(?:class|object)\s+(\w+)` matches. -/
def firstClassTail : List Str → Option (Str × Str)
  | [] => none
  | s :: rest =>
    match classWordTail s with
    | some r => some r
    | none => firstClassTail rest

/-- Body of pattern 1 after the anchor: `\s*` then the greedy Kleene star
of modifiers (most iterations tried first, per greedy backtracking) then
`(?:class|object)\s+(\w+)`. -/
def p2Body (s : Str) : Option (Str × Str) :=
  let s1 := s.dropWhile isPySpace
  firstClassTail ((modChainAux (s1.length + 1) s1).reverse)

/-- The `(?:^|\n)` anchor of patterns 0 and 1: under `re.MULTILINE`, `^`
matches where `atStart` holds (content start or just after a newline);
otherwise the `\n` alternative consumes one newline. -/
def anchoredMatchAt (body : Str → Option (Str × Str)) (atStart : Bool) (s : Str) :
    Option (Str × Str) :=
  match (if atStart then body s else none) with
  | some r => some r
  | none =>
    match s with
    | '\n' :: s2 => body s2
    | _ => none

/-- `re.finditer` for an anchored class pattern: leftmost non-overlapping
matches.  A match always ends inside the `(\w+)` group, so scanning
resumes with `atStart = false`; every match consumes at least the
`class` keyword, so fuel `s.length + 1` never runs out. -/
def classScanAux (body : Str → Option (Str × Str)) : Nat → Bool → Str → List Str
  | 0, _, _ => []
  | fuel + 1, atStart, s =>
    match anchoredMatchAt body atStart s with
    | some (g, rest) => g :: classScanAux body fuel false rest
    | none =>
      match s with
      | [] => []
      | c :: cs => classScanAux body fuel (c = '\n') cs

/-- All captured groups of pattern 0, in match order. -/
def p1Candidates (s : Str) : List Str := classScanAux p1Body (s.length + 1) true s

/-- All captured groups of pattern 1, in match order. -/
def p2Candidates (s : Str) : List Str := classScanAux p2Body (s.length + 1) true s

/-! ## extract_package_and_class (lines 120-171) -/

/-- `re.search(r'package\s+([a-zA-Z0-9_.]+)', content)`: group of the
leftmost match, scanning position by position. -/
def isPkgChar (c : Char) : Bool := c.isAlphanum || c = '_' || c = '.'

def packageAt (s : Str) : Option Str :=
  match litM ("package".data) s with
  | none => none
  | some t =>
    match tw1 isPySpace t with
    | none => none
    | some (_, t2) => (tw1 isPkgChar t2).map (fun r => r.1)

def searchPackage : Str → Option Str
  | [] => none
  | c :: cs =>
    match packageAt (c :: cs) with
    | some g => some g
    | none => searchPackage cs

def nativeExportName : Str := "NativeExport".data

def nativeLit : Str := "Native".data

/-- The candidate filter of the class loop (lines 148-153): skip the
annotation's own name and anything starting with its prefix. -/
def firstAcceptable : List Str → Option Str
  | [] => none
  | c :: rest =>
    if c ≠ nativeExportName ∧ pyStartsWith nativeLit c = false then some c
    else firstAcceptable rest

/-- The `for pattern in class_patterns` loop (lines 145-155).  If neither
pattern 0 nor pattern 1 yields an acceptable candidate, the loop goes on
to compile pattern 2, whose variable-width look-behind makes
`re.finditer` raise `re.error` — modelled as `Except.error ()`. -/
def classFromPatterns (file_content : Str) : Except Unit (Option Str) :=
  match firstAcceptable (p1Candidates file_content) with
  | some c => Except.ok (some c)
  | none =>
    match firstAcceptable (p2Candidates file_content) with
    | some c => Except.ok (some c)
    | none => Except.error ()

/-- The filename fallback (lines 157-162): `class_name = file_path.stem`
with the first character upper-cased; `stem[0]` raises `IndexError` on an
empty stem.  (Dead in practice: the pattern loop raises before ever
leaving `class_name` unset.) -/
def filenameFallback (stem : Str) : Except Unit Str :=
  match stem with
  | [] => Except.error ()
  | c :: cs => Except.ok (if c.isUpper then c :: cs else c.toUpper :: cs)

/-- Python truthiness of an optional string (`None` and `""` are falsy). -/
def pyTruthyOpt (o : Option Str) : Bool :=
  match o with
  | none => false
  | some s => !s.isEmpty

/-- Lines 164-171: combine package and class name. -/
def combineNames (package_name : Option Str) (class_name : Str) : Option Str :=
  if pyTruthyOpt package_name && !class_name.isEmpty then
    some ((package_name.getD []).map (fun c => if c = '.' then '/' else c) ++ '/' :: class_name)
  else if !class_name.isEmpty then some class_name
  else none

/-- `extract_package_and_class(file_content, file_path)` (lines 120-171),
with the file path represented by its stem.  `Except.error` marks the
exception paths (`re.error` from pattern 2, `IndexError` from an empty
stem); `Except.ok none` is the function's own `return None`. -/
def extract_package_and_class (file_content : Str) (stem : Str) : Except Unit (Option Str) :=
  let package_name := searchPackage file_content
  match classFromPatterns file_content with
  | Except.error e => Except.error e
  | Except.ok copt =>
    match copt with
    | some class_name => Except.ok (combineNames package_name class_name)
    | none =>
      match filenameFallback stem with
      | Except.error e => Except.error e
      | Except.ok class_name => Except.ok (combineNames package_name class_name)

/-! ## Per-match processing inside extract_native_exports (lines 238-283) -/

/-- The parameter loop (lines 250-270): split on `,`, strip, require a
`:`, split on the last `:`, strip, parse nullability, map the type.
`none` models `param_parsing_success = False` (malformed parameter or
unknown parameter type); the loop breaks at the first failure, which
yields the same `none`. -/
def mapParams : List Str → Option (List Str)
  | [] => some []
  | p0 :: rest =>
    let param := pyStrip p0
    if param.contains ':' = false then none
    else
      let colon_idx := pyRFind ':' param
      let param_type := pyStrip (param.drop (colon_idx + 1).toNat)
      let tn := parse_kotlin_type param_type
      match kotlin_to_jni_type tn.1 tn.2 with
      | none => none
      | some sig =>
        match mapParams rest with
        | none => none
        | some sigs => some (sig :: sigs)

/-- Processing of one regex match (lines 238-283): returns
`(function name, JNI signature)`, or `none` when the match is skipped
(malformed parameter, unknown parameter type, or unknown return type).
`ret = match.group("ret") or "Unit"` applies Python truthiness. -/
def processMatch (m : Str × Str × Option Str) : Option (Str × Str) :=
  let name := m.1
  let params := pyStrip m.2.1
  let ret := match m.2.2 with
    | some r => if r.isEmpty then unitLit else r
    | none => unitLit
  let sig_parts? := if params.isEmpty then some [] else mapParams (pySplit ',' params)
  match sig_parts? with
  | none => none
  | some sig_parts =>
    let rt := parse_kotlin_type ret
    match kotlin_to_jni_type rt.1 rt.2 with
    | none => none
    | some ret_sig => some (name, '(' :: joinL sig_parts ++ ')' :: ret_sig)

/-- A Kotlin source file, given by its `Path.stem` and its content
(`read_text` is modelled as always succeeding; the claims under study do
not involve unreadable files). -/
structure KtFile where
  stem : Str
  content : Str
deriving DecidableEq

/-- `methods_found` for one file (lines 237-286): all successfully
processed matches, in scan order. -/
def fileMethods (text : Str) : List (Str × Str) :=
  (methodScan text).filterMap processMatch

/-- `class_methods[class_name].extend(methods_found)` on the insertion-order
`defaultdict` (line 290): extend an existing key in place, or append a
new key at the end. -/
def extendGroup (g : List (Str × List (Str × Str))) (c : Str) (ms : List (Str × Str)) :
    List (Str × List (Str × Str)) :=
  match g with
  | [] => (c, ms) :: []
  | kv :: rest => if kv.1 = c then (kv.1, kv.2 ++ ms) :: rest else kv :: extendGroup rest c ms

/-- The per-file loop of `extract_native_exports` (lines 217-290), with
the accumulated `class_methods` dict threaded through.  A raising
`extract_package_and_class` propagates (the `try` only guards
`read_text`); a `None` class name skips the file with a warning; an
empty `methods_found` leaves the dict untouched. -/
def extractGo : List KtFile → List (Str × List (Str × Str)) →
    Except Unit (List (Str × List (Str × Str)))
  | [], acc => Except.ok acc
  | f :: rest, acc =>
    match extract_package_and_class f.content f.stem with
    | Except.error e => Except.error e
    | Except.ok none => extractGo rest acc
    | Except.ok (some class_name) =>
      let methods_found := fileMethods f.content
      if methods_found.isEmpty then extractGo rest acc
      else extractGo rest (extendGroup acc class_name methods_found)

/-- `extract_native_exports(kotlin_files)` (lines 198-292): dictionary
from class names to `(function name, signature)` lists, in first-touch
key order. -/
def extract_native_exports (kotlin_files : List KtFile) :
    Except Unit (List (Str × List (Str × Str))) :=
  extractGo kotlin_files []

/-! ## generate_cpp_file (lines 294-345), as the byte string written to the output file -/

/-- `class_name.split('/')[-1]`. -/
def shortClassName (class_name : Str) : Str :=
  (pySplit '/' class_name).getLastD []

def totalMethods (class_methods : List (Str × List (Str × Str))) : Nat :=
  (class_methods.map (fun e => e.2.length)).sum

/-- The error text passed to `SATURN_ERROR` for an unresolvable class. -/
def failMsg (class_name : Str) : Str :=
  "Failed to find ".data ++ shortClassName class_name ++ " class".data

def cwAuto1 : Str := "// Auto-generated JNI loader code\n".data

def cwAuto2 : Str := "// Generated by jni_generator.py\n".data

def cwFound (nclasses nmethods : Nat) : Str :=
  "// Found ".data ++ natStr nclasses ++ " classes with ".data ++ natStr nmethods ++ " methods\n\n".data

def cwOnLoadSig : Str := "JNIEXPORT jint JNI_OnLoad(JavaVM* vm, void* reserved)\n".data

def cwOpenBrace : Str := "\x7b\n".data

def cwLoggerInit : Str := "    saturn::tools::Logger::initialize();\n\n".data

def cwHelperGet (helper_class : Str) : Str :=
  "    auto helper = ".data ++ helper_class ++ "::getInstance();\n\n".data

def cwHelperInit : Str := "    helper->initialize(vm);\n\n".data

/-- The eight writes before the per-class loop (lines 306-316). -/
def headerWrites (class_methods : List (Str × List (Str × Str))) (helper_class : Str) :
    List Str :=
  cwAuto1 :: cwAuto2 :: cwFound class_methods.length (totalMethods class_methods) ::
  cwOnLoadSig :: cwOpenBrace :: cwLoggerInit :: cwHelperGet helper_class :: cwHelperInit :: []

def cwLoadComment (class_name : Str) : Str :=
  "    // Load methods for ".data ++ class_name ++ "\n".data

def cwBlockOpen : Str := "    \x7b\n".data

def cwFindClass (class_name : Str) : Str :=
  "        auto clazzRef = helper->findClass(\"".data ++ class_name ++ "\");\n".data

def cwIfNot : Str := "        if (!clazzRef)\n".data

def cwErrOpen : Str := "        \x7b\n".data

def cwError (class_name : Str) : Str :=
  "            SATURN_ERROR(\"".data ++ failMsg class_name ++ "\");\n".data

def cwReturnErr : Str := "            return JNI_ERR;\n".data

def cwErrClose : Str := "        \x7d\n\n".data

def cwGlobalRef : Str := "        helper->createGlobalRef(clazzRef);\n\n".data

def cwGetMID1 (class_name name : Str) : Str :=
  "        helper->getStaticMethodID(\"".data ++ class_name ++ "\", \"".data ++ name ++ "\",\n".data

def cwGetMID2 (sig : Str) : Str :=
  "                                  \"".data ++ sig ++ "\");\n\n".data

def cwBlockClose : Str := "    \x7d\n\n".data

/-- The writes of one iteration of the per-class loop (lines 319-336). -/
def classWriteList (class_name : Str) (methods : List (Str × Str)) : List Str :=
  cwLoadComment class_name :: cwBlockOpen :: cwFindClass class_name :: cwIfNot ::
  cwErrOpen :: cwError class_name :: cwReturnErr :: cwErrClose :: cwGlobalRef ::
  (methods.flatMap (fun m => cwGetMID1 class_name m.1 :: cwGetMID2 m.2 :: [])
   ++ cwBlockClose :: [])

def cwRetVersion : Str := "    return JNI_VERSION_1_6;\n".data

def cwCloseBrace : Str := "\x7d\n".data

def cwUnloadSig : Str :=
  "\nJNIEXPORT void JNICALL JNI_OnUnload(JavaVM* vm, void* /*reserved*/)\n".data

def cwHelperShutdown : Str :=
  "    saturn::platform::agdk::JNIHelper::getInstance()->shutdown();\n\n".data

def cwLoggerShutdown : Str := "    saturn::tools::Logger::shutdown();\n".data

/-- The writes after the per-class loop (lines 338-345). -/
def tailWrites : List Str :=
  cwRetVersion :: cwCloseBrace :: cwUnloadSig :: cwOpenBrace ::
  cwHelperShutdown :: cwLoggerShutdown :: cwCloseBrace :: []

/-- `generate_cpp_file(class_methods, output_path, helper_class)`
(lines 294-345), as the full byte string written to `output_path`:
the concatenation of every `f.write` in execution order. -/
def generate_cpp_file (class_methods : List (Str × List (Str × Str))) (helper_class : Str) :
    Str :=
  joinL (headerWrites class_methods helper_class
         ++ class_methods.flatMap (fun e => classWriteList e.1 e.2)
         ++ tailWrites)

/-- The text of one class's scoped block, for stating structure theorems. -/
def classBlock (class_name : Str) (methods : List (Str × Str)) : Str :=
  joinL (classWriteList class_name methods)

/-! ## main (lines 347-386) and the file scanner (lines 173-196) -/

/-- The filesystem oracle consulted by `find_kotlin_files`:
`Path.is_file`, `Path.is_dir`, `Path.rglob("*.kt")`, `Path(".").glob(pattern)`,
and `Path.read_text`. -/
structure FS where
  is_file : Str → Bool
  is_dir : Str → Bool
  rglob_kt : Str → List Str
  glob : Str → List Str
  read : Str → Str

/-- Final path component (`Path.name`). -/
def pathName (p : Str) : Str := (p.reverse.takeWhile (fun c => c ≠ '/')).reverse

/-- `Path.suffix`: the final dot-extension of the name, or empty when the
name has no dot past its first character. -/
def pathSuffix (p : Str) : Str :=
  let n := pathName p
  let i := pyRFind '.' n
  if 1 ≤ i then n.drop i.toNat else []

/-- `Path.stem`: the name without its suffix. -/
def pathStem (p : Str) : Str :=
  let n := pathName p
  let i := pyRFind '.' n
  if 1 ≤ i then n.take i.toNat else n

def ktExt : Str := ".kt".data

/-- The accumulation loop of `find_kotlin_files` (lines 183-194), before
deduplication: explicit `.kt` files, recursive directory globs, then
`Path(".").glob(input_path)` for everything else. -/
def gatherFiles (fs : FS) (input_paths : List Str) : List Str :=
  input_paths.flatMap (fun input_path =>
    if fs.is_file input_path && pathSuffix input_path = ktExt then input_path :: []
    else if fs.is_dir input_path then fs.rglob_kt input_path
    else fs.glob input_path)

/-- `find_kotlin_files` (lines 173-196).  The final `list(set(kotlin_files))`
iterates a hash-based set whose order CPython does not fix, so the set
construction is modelled by an order oracle `setOrder`; theorems
constrain it to produce some permutation of the deduplicated gathered
list, which is exactly what `list(set(...))` guarantees. -/
def find_kotlin_files (fs : FS) (setOrder : List Str → List Str) (input_paths : List Str) :
    List Str :=
  setOrder (gatherFiles fs input_paths)

/-- `main` (lines 347-386) downstream of file discovery, over the already
resolved file list: returns the exit code and the output file content
when one is written; `Except.error` propagates the uncaught exception
raised inside `extract_native_exports` (the process then dies with a
traceback instead of returning a code). -/
def main_model (kotlin_files : List KtFile) (helper_class : Str) :
    Except Unit (Nat × Option Str) :=
  if kotlin_files.isEmpty then Except.ok (1, none)
  else
    match extract_native_exports kotlin_files with
    | Except.error e => Except.error e
    | Except.ok class_methods =>
      if class_methods.isEmpty then Except.ok (0, none)
      else Except.ok (0, some (generate_cpp_file class_methods helper_class))

/-- The full generation pipeline: scanner, file reading, extraction,
emission (`main`, lines 349-374). -/
def run_generator (fs : FS) (setOrder : List Str → List Str) (input_paths : List Str)
    (helper_class : Str) : Except Unit (Nat × Option Str) :=
  let paths := find_kotlin_files fs setOrder input_paths
  let files := paths.map (fun p => KtFile.mk (pathStem p) (fs.read p))
  main_model files helper_class

/-- The output file bytes of a pipeline outcome (no file on error or when
nothing was written). -/
def writtenOutput : Except Unit (Nat × Option Str) → Option Str
  | Except.ok r => r.2
  | Except.error _ => none

/-! ## Run-time model of the emitted load entry point -/

def jniVersionLit : Str := "JNI_VERSION_1_6".data

def jniErrLit : Str := "JNI_ERR".data

/-- Outcome of running the emitted `JNI_OnLoad`: the method handles
resolved (class, name, signature, in execution order), the error
messages logged, and the value returned. -/
structure LoadOutcome where
  resolved : List (Str × Str × Str)
  errors : List Str
  ret : Str
deriving DecidableEq

/-- Modelled from the spec: the generated C++ `JNI_OnLoad` is emitted as
text and is not part of src/, so its run-time control flow is modelled
here from the specification of the load entry point — classes are
visited in grouping order; a class whose `findClass` fails logs the
short-name error and returns `JNI_ERR` at once, so no later class is
attempted; a resolved class has each of its method handles resolved in
discovery order; after the last class the function returns
`JNI_VERSION_1_6`.  `resolve` says which class references the runtime
can produce. -/
def runEmittedLoad (resolve : Str → Bool) :
    List (Str × List (Str × Str)) → LoadOutcome
  | [] => LoadOutcome.mk [] [] jniVersionLit
  | e :: rest =>
    if resolve e.1 then
      let o := runEmittedLoad resolve rest
      LoadOutcome.mk (e.2.map (fun m => (e.1, m.1, m.2)) ++ o.resolved) o.errors o.ret
    else LoadOutcome.mk [] (failMsg e.1 :: []) jniErrLit

/-! ## Grouping combinators used to state the Extractor theorems -/

/-- The `(class name, methods)` contribution of one file: `none` when the
class lookup raises or returns `None`, or when no method survives. -/
def entryOf (f : KtFile) : Option (Str × List (Str × Str)) :=
  match extract_package_and_class f.content f.stem with
  | Except.ok (some c) =>
    if (fileMethods f.content).isEmpty then none else some (c, fileMethods f.content)
  | _ => none

def entriesOf (files : List KtFile) : List (Str × List (Str × Str)) :=
  files.filterMap entryOf

/-- Folding the per-file contributions into the insertion-order dict. -/
def groupMerge (l : List (Str × List (Str × Str))) : List (Str × List (Str × Str)) :=
  l.foldl (fun g e => extendGroup g e.1 e.2) []

/-- First-occurrence deduplication, in encounter order. -/
def dedupFirst (l : List Str) : List Str :=
  l.foldl (fun ks k => if k ∈ ks then ks else ks ++ k :: []) []

def isOkE {α : Type} : Except Unit α → Bool
  | Except.ok _ => true
  | Except.error _ => false

/-! ## Concrete data for witnesses and counterexamples -/

def helperDefault : Str := "saturn::platform::agdk::JNIHelper".data

def w2Stem1 : Str := "MathOps".data

def w2Content1 : Str :=
  "package com.example\nclass MathOps\n@NativeExport fun add(a: Int, b: Int): Int\n@NativeExport fun neg(a: Int): Int\n".data

def w2Stem2 : Str := "StrOps".data

def w2Content2 : Str :=
  "package com.example\nclass StrOps\n@NativeExport fun cat(a: String, b: String): String\n".data

def w2Stem3 : Str := "MoreMath".data

def w2Content3 : Str :=
  "package com.example\nclass MathOps\n@NativeExport fun mul(a: Int, b: Int): Int\n".data

def w2Files : List KtFile :=
  KtFile.mk w2Stem1 w2Content1 :: KtFile.mk w2Stem2 w2Content2 :: KtFile.mk w2Stem3 w2Content3 :: []

def c5Stem : Str := "Math".data

def c5Content : Str :=
  "class Math\n@NativeExport fun bad(x: Foo): Int\n@NativeExport fun good(a: Int): Int\n".data

def c5BadMatch : Str × Str × Option Str := (r"bad".data, "x: Foo".data, some (r"Int".data))

def c5GoodMatch : Str × Str × Option Str := (r"good".data, "a: Int".data, some (r"Int".data))

def c5ClassName : Str := "Math".data

def c7File : KtFile := KtFile.mk ("Util".data) ("fun ping() = 1\n".data)

def c10Content : Str := "val x = 1\n".data

def c10Stem : Str := "helpers".data

def c6ClassA : Str := "com/example/Alpha".data

def c6ClassB : Str := "com/example/Beta".data

def c6MethodsA : List (Str × Str) := (r"fa".data, "()I".data) :: []

def c6MethodsB : List (Str × Str) := (r"fb".data, "()V".data) :: []

def c6CM : List (Str × List (Str × Str)) := (c6ClassA, c6MethodsA) :: (c6ClassB, c6MethodsB) :: []

/-- A runtime that resolves every class except `c6ClassB`. -/
def c6Resolve : Str → Bool := fun c => !(c == c6ClassB)

def c1Dir : Str := "engine_bridge/src/main/java".data

def c1PathA : Str := "engine_bridge/src/main/java/Alpha.kt".data

def c1PathB : Str := "engine_bridge/src/main/java/Beta.kt".data

def c1ContentA : Str :=
  "package com.example\nclass Alpha\n@NativeExport fun fa(): Int\n".data

def c1ContentB : Str :=
  "package com.example\nclass Beta\n@NativeExport fun fb(): Int\n".data

/-- A two-file filesystem for exercising the pipeline. -/
def c1FS : FS :=
  FS.mk (fun _ => false) (fun p => p == c1Dir)
    (fun p => if p == c1Dir then c1PathA :: c1PathB :: [] else [])
    (fun _ => [])
    (fun p => if p == c1PathA then c1ContentA else if p == c1PathB then c1ContentB else [])

/-- One admissible iteration order of `list(set(...))`. -/
def ordKeep : List Str → List Str := fun l => l.dedup

/-- Another admissible iteration order of `list(set(...))`. -/
def ordRev : List Str → List Str := fun l => l.dedup.reverse

def c8Pat1 : Str := "src/a/*.kt".data

def c8Pat2 : Str := "src/*/Shared.kt".data

def c8File : Str := "src/a/Shared.kt".data

/-- A filesystem where two glob patterns overlap on one file. -/
def c8FS : FS :=
  FS.mk (fun _ => false) (fun _ => false) (fun _ => [])
    (fun p => if p == c8Pat1 then c8File :: [] else if p == c8Pat2 then c8File :: [] else [])
    (fun _ => [])

def intArrayLit : Str := "IntArray".data

def intPair : Str × Str := (r"Int".data, r"I".data)

def c5File : KtFile := KtFile.mk c5Stem c5Content

/-- Number of occurrences of `x` in `l` (for stating "exactly once"). -/
def countOcc (x : Str) (l : List Str) : Nat := (l.filter (fun y => decide (y = x))).length

/-! # Theorems -/

theorem litM_some_length : ∀ (l s r : Str), litM l s = some r → s.length = l.length + r.length := by
  intro l
  induction l with
  | nil => intro s r h; simp [litM] at h; simp [h]
  | cons c cs ih =>
    intro s r h
    cases s with
    | nil => simp [litM] at h
    | cons d ds =>
      simp only [litM] at h
      by_cases hc : c = d
      · simp [hc] at h
        have := ih ds r h
        simp [List.length_cons, this]
        omega
      · simp [hc] at h

theorem litM_append_self : ∀ (l t : Str), litM l (l ++ t) = some t := by
  intro l
  induction l with
  | nil => intro t; simp [litM]
  | cons c cs ih => intro t; simp [litM, ih]

theorem pyEndsWith_append (suf x : Str) : pyEndsWith suf (x ++ suf) = true := by
  simp [pyEndsWith, List.reverse_append, litM_append_self]

theorem pyEndsWith_le (suf s : Str) (h : pyEndsWith suf s = true) : suf.length ≤ s.length := by
  simp only [pyEndsWith, Option.isSome_iff_exists] at h
  obtain ⟨r, hr⟩ := h
  have := litM_some_length _ _ _ hr
  simp at this
  omega

theorem lookupStr_mem {α : Type} (k : Str) (l : List (Str × α)) (v : α)
    (h : lookupStr k l = some v) : v ∈ l.map Prod.snd := by
  induction l with
  | nil => simp [lookupStr] at h
  | cons kv rest ih =>
    rw [List.map_cons]
    simp only [lookupStr] at h
    by_cases hk : kv.1 = k
    · rw [if_pos hk] at h
      injection h with h2
      exact h2 ▸ List.mem_cons_self _ _
    · rw [if_neg hk] at h
      exact List.mem_cons_of_mem _ (ih h)

theorem kjtBase_ne_nil (k : Str) (b : Bool) (r : Str) (h : kjtBase k b = some r) : r ≠ [] := by
  have hwrap : ∀ v ∈ wrapperMapping.map Prod.snd, v ≠ [] := by decide
  unfold kjtBase at h
  split at h
  · exact absurd h (by simp)
  · rename_i bs
    split at h
    · exact absurd h (by simp)
    · rename_i hbs
      split at h
      · split at h
        · rename_i w hw
          injection h with h2
          exact h2 ▸ hwrap _ (lookupStr_mem _ _ _ hw)
        · exact absurd h (by simp)
      · injection h with h2
        subst h2
        intro hnil
        subst hnil
        simp at hbs

theorem kjtAux_succ_array (fuel : Nat) (s : Str) (b : Bool) (h : pyEndsWith arrayLit s = true) :
    kjtAux (fuel + 1) s b
      = match kjtAux fuel (s.take (s.length - 5)) false with
        | some element_sig => if element_sig.isEmpty then none else some ('[' :: element_sig)
        | none => none := by
  simp only [kjtAux, h, if_true]

theorem kjtAux_ne_nil : ∀ (fuel : Nat) (s : Str) (b : Bool) (r : Str),
    kjtAux fuel s b = some r → r ≠ [] := by
  intro fuel
  induction fuel with
  | zero => intro s b r h; exact kjtBase_ne_nil s b r h
  | succ n ih =>
    intro s b r h
    by_cases he : pyEndsWith arrayLit s = true
    · rw [kjtAux_succ_array n s b he] at h
      cases hrec : kjtAux n (s.take (s.length - 5)) false with
      | none => rw [hrec] at h; exact absurd h (by simp)
      | some es =>
        rw [hrec] at h
        dsimp only at h
        by_cases hes : es.isEmpty = true
        · rw [if_pos hes] at h; exact absurd h (by simp)
        · rw [if_neg hes] at h
          injection h with h2
          subst h2
          simp
    · simp only [kjtAux, he, Bool.false_eq_true, if_false] at h
      exact kjtBase_ne_nil s b r h

theorem kjtAux_fuel : ∀ (n : Nat) (s : Str), s.length ≤ n → ∀ (b : Bool) (f1 f2 : Nat),
    s.length ≤ f1 → s.length ≤ f2 → kjtAux f1 s b = kjtAux f2 s b := by
  intro n
  induction n with
  | zero =>
    intro s hs b f1 f2 h1 h2
    have hnil : s = [] := by
      cases s with
      | nil => rfl
      | cons c cs => simp at hs
    subst hnil
    have hno : pyEndsWith arrayLit ([] : Str) = false := by decide
    cases f1 with
    | zero => cases f2 with
      | zero => rfl
      | succ m => simp [kjtAux, hno]
    | succ m => cases f2 with
      | zero => simp [kjtAux, hno]
      | succ k => simp [kjtAux, hno]
  | succ n ih =>
    intro s hs b f1 f2 h1 h2
    by_cases hz : s.length = 0
    · have hnil : s = [] := List.length_eq_zero.mp hz
      subst hnil
      exact ih [] (by simp) b f1 f2 h1 h2
    · cases f1 with
      | zero => omega
      | succ m1 =>
        cases f2 with
        | zero => omega
        | succ m2 =>
          by_cases he : pyEndsWith arrayLit s = true
          · rw [kjtAux_succ_array m1 s b he, kjtAux_succ_array m2 s b he]
            have h5 : 5 ≤ s.length := by
              have := pyEndsWith_le arrayLit s he
              simpa [arrayLit] using this
            have hel : (s.take (s.length - 5)).length = s.length - 5 := by
              rw [List.length_take]
              omega
            have hrec := ih (s.take (s.length - 5)) (by omega) false m1 m2 (by omega) (by omega)
            rw [hrec]
          · simp only [kjtAux, he, Bool.false_eq_true, if_false]

theorem c4_array_rule (X : Str) :
    kotlin_to_jni_type (X ++ arrayLit) false
      = Option.map (fun s => '[' :: s) (kotlin_to_jni_type X false) := by
  unfold kotlin_to_jni_type
  have hlen : (X ++ arrayLit).length = X.length + 4 + 1 := by simp [arrayLit]
  rw [hlen]
  rw [kjtAux_succ_array (X.length + 4) (X ++ arrayLit) false (pyEndsWith_append arrayLit X)]
  have htake : (X ++ arrayLit).take ((X ++ arrayLit).length - 5) = X := by
    rw [hlen]
    rw [show X.length + 4 + 1 - 5 = X.length from by omega]
    exact List.take_left X arrayLit
  rw [htake]
  rw [kjtAux_fuel X.length X (le_refl _) false (X.length + 4) X.length (by omega) (le_refl _)]
  cases hx : kjtAux X.length X false with
  | none => simp
  | some s =>
    have hne := kjtAux_ne_nil X.length X false s hx
    have hemp : s.isEmpty = false := by simpa [List.isEmpty_iff] using hne
    simp [hemp]

theorem c9_array_nullability_noop (T : Str) (h : pyEndsWith arrayLit T = true) :
    kotlin_to_jni_type T true = kotlin_to_jni_type T false := by
  unfold kotlin_to_jni_type
  have h5 : 5 ≤ T.length := by
    have := pyEndsWith_le arrayLit T h
    simpa [arrayLit] using this
  obtain ⟨k, hk⟩ : ∃ k, T.length = k + 1 := ⟨T.length - 1, by omega⟩
  rw [hk]
  rw [kjtAux_succ_array k T true h, kjtAux_succ_array k T false h]

set_option maxHeartbeats 1000000 in
theorem c3_type_table : ∀ kv ∈ jniMapping,
    kotlin_to_jni_type kv.1 false = some kv.2
    ∧ (pyIn kv.2 primCodes = true →
        kotlin_to_jni_type kv.1 true = lookupStr kv.2 wrapperMapping)
    ∧ (pyIn kv.2 primCodes = false → kotlin_to_jni_type kv.1 true = some kv.2) := by
  decide

theorem c3_type_table_witness :
    intPair ∈ jniMapping
    ∧ (kotlin_to_jni_type intPair.1 false = some intPair.2
       ∧ (pyIn intPair.2 primCodes = true →
           kotlin_to_jni_type intPair.1 true = lookupStr intPair.2 wrapperMapping)
       ∧ (pyIn intPair.2 primCodes = false → kotlin_to_jni_type intPair.1 true = some intPair.2)) :=
  ⟨by decide, c3_type_table intPair (by decide)⟩

theorem c9_array_nullability_noop_witness :
    pyEndsWith arrayLit intArrayLit = true
    ∧ kotlin_to_jni_type intArrayLit true = kotlin_to_jni_type intArrayLit false :=
  ⟨by decide, c9_array_nullability_noop intArrayLit (by decide)⟩

theorem length_filterMap_all_some {α β : Type} (p : α → Option β) :
    ∀ l : List α, (∀ m ∈ l, (p m).isSome = true) → (l.filterMap p).length = l.length := by
  intro l
  induction l with
  | nil => intro _; rfl
  | cons a rest ih =>
    intro h
    have ha := h a (by simp)
    obtain ⟨b, hb⟩ := Option.isSome_iff_exists.mp ha
    rw [List.filterMap_cons, hb]
    simp only [List.length_cons]
    rw [ih (fun m hm => h m (by simp [hm]))]

theorem extendGroup_keys (g : List (Str × List (Str × Str))) (c : Str) (ms : List (Str × Str)) :
    (extendGroup g c ms).map Prod.fst
      = if c ∈ g.map Prod.fst then g.map Prod.fst else g.map Prod.fst ++ c :: [] := by
  induction g with
  | nil => simp [extendGroup]
  | cons kv rest ih =>
    by_cases hk : kv.1 = c
    · simp [extendGroup, hk]
    · simp only [extendGroup, hk, if_false, List.map_cons, ih]
      by_cases hc : c ∈ rest.map Prod.fst
      · simp [hc, Ne.symm hk]
      · simp [hc, Ne.symm hk]

theorem extendGroup_sum (g : List (Str × List (Str × Str))) (c : Str) (ms : List (Str × Str)) :
    ((extendGroup g c ms).map (fun e => e.2.length)).sum
      = ((g.map (fun e => e.2.length)).sum) + ms.length := by
  induction g with
  | nil => simp [extendGroup]
  | cons kv rest ih =>
    by_cases hk : kv.1 = c
    · simp [extendGroup, hk]
      omega
    · simp [extendGroup, hk, ih]
      omega

theorem extendGroup_lookup_self (g : List (Str × List (Str × Str))) (c : Str) (ms : List (Str × Str)) :
    lookupStr c (extendGroup g c ms) = some ((lookupStr c g).getD [] ++ ms) := by
  induction g with
  | nil => simp [extendGroup, lookupStr]
  | cons kv rest ih =>
    by_cases hk : kv.1 = c
    · simp [extendGroup, hk, lookupStr]
    · simp [extendGroup, hk, lookupStr, ih]

theorem extendGroup_lookup_other (g : List (Str × List (Str × Str))) (c : Str)
    (ms : List (Str × Str)) (c' : Str) (h : c' ≠ c) :
    lookupStr c' (extendGroup g c ms) = lookupStr c' g := by
  induction g with
  | nil =>
    have hcc : ¬c = c' := fun hh => h hh.symm
    simp [extendGroup, lookupStr, hcc]
  | cons kv rest ih =>
    by_cases hk : kv.1 = c
    · have hkc : ¬kv.1 = c' := fun hh => h (hh.symm.trans hk)
      have hcc : ¬c = c' := fun hh => h hh.symm
      simp [extendGroup, hk, lookupStr, hkc, hcc]
    · simp only [extendGroup, hk, if_false]
      by_cases hk2 : kv.1 = c'
      · simp [lookupStr, hk2]
      · simp [lookupStr, hk2, ih]

theorem groupFold_keys (l : List (Str × List (Str × Str))) :
    ∀ g : List (Str × List (Str × Str)),
    ((l.foldl (fun g e => extendGroup g e.1 e.2) g).map Prod.fst)
      = (l.map Prod.fst).foldl (fun ks k => if k ∈ ks then ks else ks ++ k :: []) (g.map Prod.fst) := by
  induction l with
  | nil => intro g; rfl
  | cons e rest ih =>
    intro g
    rw [List.foldl_cons, List.map_cons, List.foldl_cons]
    rw [ih (extendGroup g e.1 e.2)]
    rw [extendGroup_keys]

theorem groupFold_sum (l : List (Str × List (Str × Str))) :
    ∀ g : List (Str × List (Str × Str)),
    (((l.foldl (fun g e => extendGroup g e.1 e.2) g).map (fun e => e.2.length)).sum)
      = ((g.map (fun e => e.2.length)).sum) + ((l.map (fun e => e.2.length)).sum) := by
  induction l with
  | nil => intro g; simp
  | cons e rest ih =>
    intro g
    rw [List.foldl_cons, ih (extendGroup g e.1 e.2), extendGroup_sum]
    simp
    omega

theorem groupFold_lookup (l : List (Str × List (Str × Str))) :
    ∀ (g : List (Str × List (Str × Str))) (c : Str),
    lookupStr c (l.foldl (fun g e => extendGroup g e.1 e.2) g)
      = (match lookupStr c g with
         | some v => some (v ++ joinL ((l.filter (fun e => decide (e.1 = c))).map (fun e => e.2)))
         | none =>
           if c ∈ l.map Prod.fst then
             some (joinL ((l.filter (fun e => decide (e.1 = c))).map (fun e => e.2)))
           else none) := by
  induction l with
  | nil =>
    intro g c
    cases hg : lookupStr c g with
    | none => simp [hg, joinL]
    | some v => simp [hg, joinL]
  | cons e rest ih =>
    intro g c
    rw [List.foldl_cons, ih (extendGroup g e.1 e.2) c]
    by_cases he : e.1 = c
    · subst he
      rw [extendGroup_lookup_self]
      cases hg : lookupStr e.1 g with
      | none => simp [List.filter_cons, joinL]
      | some v => simp [List.filter_cons, joinL]
    · rw [extendGroup_lookup_other g e.1 e.2 c (fun hh => he hh.symm)]
      have hd : (decide (e.1 = c)) = false := by simp [he]
      have hne : ¬c = e.1 := fun hh => he hh.symm
      cases hg : lookupStr c g with
      | none =>
        by_cases hm : c ∈ rest.map Prod.fst
        · simp [hg, List.filter_cons, hd, List.mem_cons, hm]
        · simp [hg, List.filter_cons, hd, List.mem_cons, hm, hne]
      | some v => simp [hg, List.filter_cons, hd]

theorem extractGo_eq : ∀ (files : List KtFile) (acc : List (Str × List (Str × Str))),
    (∀ f ∈ files, isOkE (extract_package_and_class f.content f.stem) = true) →
    extractGo files acc
      = Except.ok ((entriesOf files).foldl (fun g e => extendGroup g e.1 e.2) acc) := by
  intro files
  induction files with
  | nil => intro acc _; rfl
  | cons f rest ih =>
    intro acc h
    have hf := h f (by simp)
    have hrest : ∀ x ∈ rest, isOkE (extract_package_and_class x.content x.stem) = true :=
      fun x hx => h x (by simp [hx])
    cases hepc : extract_package_and_class f.content f.stem with
    | error e => rw [hepc] at hf; simp [isOkE] at hf
    | ok copt =>
      cases copt with
      | none =>
        simp only [extractGo, hepc]
        rw [ih acc hrest]
        simp [entriesOf, List.filterMap_cons, entryOf, hepc]
      | some cname =>
        simp only [extractGo, hepc]
        by_cases hm : (fileMethods f.content).isEmpty
        · rw [if_pos hm, ih acc hrest]
          simp [entriesOf, List.filterMap_cons, entryOf, hepc, hm]
        · rw [if_neg hm, ih (extendGroup acc cname (fileMethods f.content)) hrest]
          simp [entriesOf, List.filterMap_cons, entryOf, hepc, hm]

theorem tw1_fst_ne_nil (p : Char → Bool) (s g r : Str) (h : tw1 p s = some (g, r)) : g ≠ [] := by
  cases s with
  | nil => simp [tw1] at h
  | cons c cs =>
    simp only [tw1] at h
    by_cases hp : p c = true
    · simp [hp] at h
      intro hnil
      rw [hnil] at h
      exact absurd h.1.symm (by simp)
    · simp [hp] at h

theorem classWordTail_ne_nil (s : Str) (g r : Str) (h : classWordTail s = some (g, r)) :
    g ≠ [] := by
  unfold classWordTail at h
  split at h
  · rename_i r2 heq
    injection h with h2
    subst h2
    split at heq
    · exact absurd heq (by simp)
    · rename_i t _
      split at heq
      · exact absurd heq (by simp)
      · rename_i u t2 _
        exact tw1_fst_ne_nil isPyWord t2 _ _ heq
  · split at h
    · exact absurd h (by simp)
    · rename_i t _
      split at h
      · exact absurd h (by simp)
      · rename_i u t2 _
        exact tw1_fst_ne_nil isPyWord t2 _ _ h

theorem p1Body_ne_nil (s g r : Str) (h : p1Body s = some (g, r)) : g ≠ [] := by
  unfold p1Body at h
  dsimp only at h
  split at h
  · split at h
    · rename_i r2 heq
      injection h with h2
      subst h2
      exact classWordTail_ne_nil _ _ _ heq
    · exact classWordTail_ne_nil _ _ _ h
  · exact classWordTail_ne_nil _ _ _ h

theorem firstClassTail_ne_nil : ∀ (l : List Str) (g r : Str),
    firstClassTail l = some (g, r) → g ≠ [] := by
  intro l
  induction l with
  | nil => intro g r h; simp [firstClassTail] at h
  | cons s rest ih =>
    intro g r h
    simp only [firstClassTail] at h
    split at h
    · rename_i r2 heq
      injection h with h2
      subst h2
      exact classWordTail_ne_nil _ _ _ heq
    · exact ih g r h

theorem p2Body_ne_nil (s g r : Str) (h : p2Body s = some (g, r)) : g ≠ [] := by
  unfold p2Body at h
  dsimp only at h
  exact firstClassTail_ne_nil _ _ _ h

theorem anchoredMatchAt_ne_nil (body : Str → Option (Str × Str))
    (hbody : ∀ s g r, body s = some (g, r) → g ≠ [])
    (atStart : Bool) (s g r : Str) (h : anchoredMatchAt body atStart s = some (g, r)) :
    g ≠ [] := by
  unfold anchoredMatchAt at h
  split at h
  · rename_i r2 heq
    injection h with h2
    subst h2
    split at heq
    · exact hbody _ _ _ heq
    · exact absurd heq (by simp)
  · split at h
    · exact hbody _ _ _ h
    · exact absurd h (by simp)

theorem classScanAux_ne_nil (body : Str → Option (Str × Str))
    (hbody : ∀ s g r, body s = some (g, r) → g ≠ []) :
    ∀ (fuel : Nat) (atStart : Bool) (s : Str) (g : Str),
    g ∈ classScanAux body fuel atStart s → g ≠ [] := by
  intro fuel
  induction fuel with
  | zero => intro atStart s g h; simp [classScanAux] at h
  | succ n ih =>
    intro atStart s g h
    simp only [classScanAux] at h
    split at h
    · rename_i g2 rest2 heq
      rw [List.mem_cons] at h
      cases h with
      | inl he => exact he ▸ anchoredMatchAt_ne_nil body hbody atStart s g2 rest2 heq
      | inr hm => exact ih false rest2 g hm
    · split at h
      · simp at h
      · exact ih _ _ g h

theorem firstAcceptable_mem : ∀ (l : List Str) (c : Str), firstAcceptable l = some c → c ∈ l := by
  intro l
  induction l with
  | nil => intro c h; simp [firstAcceptable] at h
  | cons x rest ih =>
    intro c h
    simp only [firstAcceptable] at h
    split at h
    · injection h with h2
      simp [h2]
    · simp [ih c h]

theorem classFromPatterns_ne_ok_none (content : Str) :
    classFromPatterns content ≠ Except.ok none := by
  unfold classFromPatterns
  split
  · simp
  · split
    · simp
    · simp

theorem classFromPatterns_ok_ne_nil (content c : Str)
    (h : classFromPatterns content = Except.ok (some c)) : c ≠ [] := by
  unfold classFromPatterns at h
  split at h
  · rename_i c2 heq
    injection h with h2
    injection h2 with h3
    subst h3
    have hmem := firstAcceptable_mem _ _ heq
    exact classScanAux_ne_nil p1Body p1Body_ne_nil _ _ _ _ hmem
  · split at h
    · rename_i c2 heq
      injection h with h2
      injection h2 with h3
      subst h3
      have hmem := firstAcceptable_mem _ _ heq
      exact classScanAux_ne_nil p2Body p2Body_ne_nil _ _ _ _ hmem
    · exact absurd h (by simp)

theorem combineNames_ne_none (package_name : Option Str) (class_name : Str)
    (h : class_name ≠ []) : combineNames package_name class_name ≠ none := by
  unfold combineNames
  have hne : class_name.isEmpty = false := by simpa [List.isEmpty_iff] using h
  by_cases hp : pyTruthyOpt package_name = true
  · simp [hp, hne]
  · simp [hp, hne]

theorem epc_never_ok_none (content stem : Str) :
    extract_package_and_class content stem ≠ Except.ok none := by
  unfold extract_package_and_class
  cases hc : classFromPatterns content with
  | error e => simp
  | ok copt =>
    cases copt with
    | some cn =>
      have hcn := classFromPatterns_ok_ne_nil content cn hc
      simp only []
      intro hcontra
      injection hcontra with h2
      exact combineNames_ne_none _ cn hcn h2
    | none => exact absurd hc (classFromPatterns_ne_ok_none content)

theorem entries_sum (files : List KtFile)
    (hcls : ∀ f ∈ files, isOkE (extract_package_and_class f.content f.stem) = true)
    (hall : ∀ f ∈ files, ∀ m ∈ methodScan f.content, (processMatch m).isSome = true) :
    ((entriesOf files).map (fun e => e.2.length)).sum
      = ((files.map (fun f => (methodScan f.content).length)).sum) := by
  induction files with
  | nil => rfl
  | cons f rest ih =>
    have hf := hcls f (by simp)
    have hlen : (fileMethods f.content).length = (methodScan f.content).length :=
      length_filterMap_all_some processMatch _ (hall f (by simp))
    have ihr := ih (fun x hx => hcls x (by simp [hx])) (fun x hx => hall x (by simp [hx]))
    cases hepc : extract_package_and_class f.content f.stem with
    | error e => rw [hepc] at hf; simp [isOkE] at hf
    | ok copt =>
      cases copt with
      | none => exact absurd hepc (epc_never_ok_none f.content f.stem)
      | some c =>
        by_cases hm : (fileMethods f.content).isEmpty
        · have hz : (methodScan f.content).length = 0 := by
            rw [← hlen]
            simpa [List.isEmpty_iff] using hm
          simp [entriesOf, List.filterMap_cons, entryOf, hepc, hm, hz]
          simpa [entriesOf] using ihr
        · simp only [entriesOf, List.filterMap_cons, entryOf, hepc, hm, Bool.false_eq_true,
            if_false, List.map_cons, List.sum_cons]
          rw [hlen]
          simp only [entriesOf] at ihr
          rw [ihr]

/-- C2: on inputs where every file's owning class resolves and every
annotated-function match parses (no malformed parameters, no unknown
types), the Extractor yields the insertion-order grouping of the
per-file contributions: its class order is the first-discovery order of
the distinct class names, its function lists sum to the total number of
annotated-function matches, and each class's list is the concatenation,
in file order, of that class's per-file function lists (functions from
multiple files with one class name land in the same binding, in
within-file discovery order). -/
theorem c2_extractor_grouping (files : List KtFile)
    (hcls : ∀ f ∈ files, isOkE (extract_package_and_class f.content f.stem) = true)
    (hall : ∀ f ∈ files, ∀ m ∈ methodScan f.content, (processMatch m).isSome = true) :
    extract_native_exports files = Except.ok (groupMerge (entriesOf files))
    ∧ (groupMerge (entriesOf files)).map Prod.fst = dedupFirst ((entriesOf files).map Prod.fst)
    ∧ ((groupMerge (entriesOf files)).map (fun e => e.2.length)).sum
        = ((files.map (fun f => (methodScan f.content).length)).sum)
    ∧ ∀ c : Str, lookupStr c (groupMerge (entriesOf files))
        = (if c ∈ (entriesOf files).map Prod.fst then
             some (joinL (((entriesOf files).filter (fun e => decide (e.1 = c))).map (fun e => e.2)))
           else none) := by
  refine ⟨extractGo_eq files [] hcls, ?_, ?_, ?_⟩
  · unfold groupMerge dedupFirst
    simpa using groupFold_keys (entriesOf files) []
  · unfold groupMerge
    rw [groupFold_sum]
    simpa using entries_sum files hcls hall
  · intro c
    unfold groupMerge
    rw [groupFold_lookup]
    simp [lookupStr]

theorem c2_extractor_grouping_witness :
    (∀ f ∈ w2Files, isOkE (extract_package_and_class f.content f.stem) = true)
    ∧ extract_native_exports w2Files = Except.ok (groupMerge (entriesOf w2Files)) :=
  ⟨by decide, (c2_extractor_grouping w2Files (by decide) (by decide)).1⟩

/-- C5: when a file's method scan contains a match whose processing fails
(for instance a parameter of unknown type), the Extractor's per-file
result is exactly the processed remainder: the failing function is
excluded, every sibling match that processes successfully is still
included, and the file's class binding carries exactly those surviving
functions. -/
theorem c5_unknown_type_isolated (f : KtFile) (c : Str)
    (l1 l2 : List (Str × Str × Option Str)) (bad : Str × Str × Option Str)
    (hc : extract_package_and_class f.content f.stem = Except.ok (some c))
    (hscan : methodScan f.content = l1 ++ bad :: l2)
    (hbad : processMatch bad = none) :
    fileMethods f.content = l1.filterMap processMatch ++ l2.filterMap processMatch
    ∧ (∀ g ∈ l1 ++ l2, ∀ res, processMatch g = some res → res ∈ fileMethods f.content)
    ∧ ((fileMethods f.content).isEmpty = false →
        extract_native_exports (f :: []) = Except.ok ((c, fileMethods f.content) :: [])) := by
  have hfm : fileMethods f.content = l1.filterMap processMatch ++ l2.filterMap processMatch := by
    unfold fileMethods
    rw [hscan, List.filterMap_append, List.filterMap_cons, hbad]
  refine ⟨hfm, ?_, ?_⟩
  · intro g hg res hr
    rw [hfm]
    rw [List.mem_append] at hg
    cases hg with
    | inl h1 => exact List.mem_append.mpr (Or.inl (List.mem_filterMap.mpr ⟨g, h1, hr⟩))
    | inr h2 => exact List.mem_append.mpr (Or.inr (List.mem_filterMap.mpr ⟨g, h2, hr⟩))
  · intro hne
    simp only [extract_native_exports, extractGo, hc, hne, Bool.false_eq_true, if_false]
    rfl


theorem c5_unknown_type_isolated_witness :
    processMatch c5BadMatch = none
    ∧ fileMethods c5File.content
        = List.filterMap processMatch [] ++ List.filterMap processMatch (c5GoodMatch :: []) :=
  ⟨by decide,
   (c5_unknown_type_isolated c5File c5ClassName [] (c5GoodMatch :: []) c5BadMatch
     (by rfl) (by decide) (by decide)).1⟩

/-- C10: evaluation of the modelled code at the failing input.  The
owning-class determination does not return a (filename-derived) name for
this content/stem pair: with no acceptable candidate from the first two
class patterns, the code compiles the third pattern, whose
variable-width look-behind raises `re.error` before the filename
fallback can run. -/
theorem c10_class_detection_raises :
    extract_package_and_class c10Content c10Stem = Except.error () := by
  rfl

/-- C7: evaluation of the modelled code at the failing input.  A resolved
file set consisting of one class-less file makes `main` die with an
uncaught `re.error` instead of warning and returning exit code 0. -/
theorem c7_main_crashes_without_class_decl :
    main_model (c7File :: []) helperDefault = Except.error () := by
  rfl

/-- C1: the full pipeline is not independent of the iteration order of the
scanner's hash-based `set()`: two orders that are both permutations of
the deduplicated file set (exactly what `list(set(...))` may produce)
yield different output bytes for the same file set with the same
contents, because class order in the emitted file follows file
processing order. -/
theorem c1_pipeline_depends_on_scan_order :
    (∀ l : List Str, (ordKeep l).Perm l.dedup)
    ∧ (∀ l : List Str, (ordRev l).Perm l.dedup)
    ∧ writtenOutput (run_generator c1FS ordKeep (c1Dir :: []) helperDefault)
        ≠ writtenOutput (run_generator c1FS ordRev (c1Dir :: []) helperDefault) := by
  refine ⟨fun l => List.Perm.refl _, fun l => (l.dedup).reverse_perm, ?_⟩
  decide


theorem countOcc_perm (x : Str) (l1 l2 : List Str) (h : l1.Perm l2) :
    countOcc x l1 = countOcc x l2 :=
  (h.filter _).length_eq

theorem countOcc_nodup (x : Str) : ∀ l : List Str, l.Nodup →
    countOcc x l = if x ∈ l then 1 else 0 := by
  intro l
  induction l with
  | nil => intro _; simp [countOcc]
  | cons a t ih =>
    intro h
    rw [List.nodup_cons] at h
    by_cases hax : a = x
    · subst hax
      have hnt : a ∉ t := h.1
      simp [countOcc, List.filter_cons, List.mem_cons]
      have := ih h.2
      simp [countOcc, hnt] at this
      simpa [countOcc] using this
    · simp only [countOcc, List.filter_cons, decide_eq_true_eq, hax, if_false]
      rw [show ((t.filter (fun y => decide (y = x))).length) = countOcc x t from rfl]
      rw [ih h.2]
      by_cases hm : x ∈ t
      · simp [List.mem_cons, hm]
      · have : ¬x = a := fun hh => hax hh.symm
        simp [List.mem_cons, hm, this]

/-- C8: two overlapping glob patterns that both match one file leave that
file exactly once in the scanner's resolved set, whatever iteration
order the hash set produces. -/
theorem c8_scanner_dedup (fs : FS) (setOrder : List Str → List Str)
    (hset : ∀ l, (setOrder l).Perm l.dedup)
    (pat1 pat2 f : Str)
    (h1f : fs.is_file pat1 = false) (h1d : fs.is_dir pat1 = false)
    (h2f : fs.is_file pat2 = false) (h2d : fs.is_dir pat2 = false)
    (hf1 : f ∈ fs.glob pat1) (hf2 : f ∈ fs.glob pat2) :
    countOcc f (find_kotlin_files fs setOrder (pat1 :: pat2 :: [])) = 1 := by
  unfold find_kotlin_files
  rw [countOcc_perm f _ _ (hset (gatherFiles fs (pat1 :: pat2 :: [])))]
  rw [countOcc_nodup f _ (List.nodup_dedup _)]
  have hmem : f ∈ gatherFiles fs (pat1 :: pat2 :: []) := by
    unfold gatherFiles
    simp only [List.flatMap_cons, List.flatMap_nil, h1f, h1d, h2f, h2d, Bool.false_and,
      Bool.false_eq_true, if_false, List.append_nil]
    exact List.mem_append.mpr (Or.inl hf1)
  simp [List.mem_dedup, hmem]

theorem c8_scanner_dedup_witness :
    c8File ∈ c8FS.glob c8Pat1
    ∧ countOcc c8File (find_kotlin_files c8FS ordKeep (c8Pat1 :: c8Pat2 :: [])) = 1 :=
  ⟨by decide,
   c8_scanner_dedup c8FS ordKeep (fun l => List.Perm.refl _) c8Pat1 c8Pat2 c8File
     rfl rfl rfl rfl (by decide) (by decide)⟩

theorem joinL_append {α : Type} : ∀ (a b : List (List α)), joinL (a ++ b) = joinL a ++ joinL b := by
  intro a
  induction a with
  | nil => intro b; rfl
  | cons x rest ih => intro b; simp [joinL, ih, List.append_assoc]

theorem joinL_flatMap {α β : Type} (f : β → List (List α)) :
    ∀ l : List β, joinL (l.flatMap f) = joinL (l.map (fun x => joinL (f x))) := by
  intro l
  induction l with
  | nil => rfl
  | cons x rest ih => rw [List.flatMap_cons, joinL_append, List.map_cons, joinL, ih]

theorem runEmittedLoad_all (resolve : Str → Bool) :
    ∀ cm : List (Str × List (Str × Str)), (∀ c ∈ cm.map Prod.fst, resolve c = true) →
    runEmittedLoad resolve cm
      = LoadOutcome.mk (joinL (cm.map (fun e => e.2.map (fun m => (e.1, m.1, m.2))))) []
          jniVersionLit := by
  intro cm
  induction cm with
  | nil => intro _; rfl
  | cons e rest ih =>
    intro h
    have he : resolve e.1 = true := h e.1 (by simp)
    simp only [runEmittedLoad, he, if_true]
    rw [ih (fun c hc => h c (by simp [hc]))]
    simp [joinL]

theorem runEmittedLoad_failAt (resolve : Str → Bool) :
    ∀ (pre : List (Str × List (Str × Str))) (c : Str) (ms : List (Str × Str))
      (post : List (Str × List (Str × Str))),
    resolve c = false → (∀ c2 ∈ pre.map Prod.fst, resolve c2 = true) →
    runEmittedLoad resolve (pre ++ (c, ms) :: post)
      = LoadOutcome.mk (joinL (pre.map (fun e => e.2.map (fun m => (e.1, m.1, m.2)))))
          (failMsg c :: []) jniErrLit := by
  intro pre
  induction pre with
  | nil =>
    intro c ms post hc _
    simp only [List.nil_append, runEmittedLoad, hc, Bool.false_eq_true, if_false]
    rfl
  | cons e rest ih =>
    intro c ms post hc h
    have he : resolve e.1 = true := h e.1 (by simp)
    simp only [List.cons_append, runEmittedLoad, he, if_true, List.append_eq]
    rw [ih c ms post hc (fun c2 hc2 => h c2 (by simp [hc2]))]
    simp [joinL]

/-- C6: the emitted load entry point is the header writes followed by one
scoped block per class in grouping order and the success-sentinel return
before the unload entry point; and under the modelled run-time semantics
of that text, a class that fails to resolve logs exactly the short-name
error and returns the error sentinel with no later class's bindings
attempted, while full resolution registers every method handle in
discovery order and returns the success sentinel. -/
theorem c6_emitted_loader (cm : List (Str × List (Str × Str))) (helper_class : Str)
    (resolve : Str → Bool) :
    generate_cpp_file cm helper_class
      = joinL (headerWrites cm helper_class)
        ++ joinL (cm.map (fun e => classBlock e.1 e.2))
        ++ joinL tailWrites
    ∧ ((∀ c ∈ cm.map Prod.fst, resolve c = true) →
        runEmittedLoad resolve cm
          = LoadOutcome.mk (joinL (cm.map (fun e => e.2.map (fun m => (e.1, m.1, m.2))))) []
              jniVersionLit)
    ∧ (∀ (pre : List (Str × List (Str × Str))) (c : Str) (ms : List (Str × Str))
         (post : List (Str × List (Str × Str))),
        cm = pre ++ (c, ms) :: post → resolve c = false →
        (∀ c2 ∈ pre.map Prod.fst, resolve c2 = true) →
        runEmittedLoad resolve cm
          = LoadOutcome.mk (joinL (pre.map (fun e => e.2.map (fun m => (e.1, m.1, m.2)))))
              (failMsg c :: []) jniErrLit) := by
  refine ⟨?_, runEmittedLoad_all resolve cm, ?_⟩
  · unfold generate_cpp_file
    rw [joinL_append, joinL_append, joinL_flatMap]
    rfl
  · intro pre c ms post hcm hc hpre
    rw [hcm]
    exact runEmittedLoad_failAt resolve pre c ms post hc hpre

theorem c6_emitted_loader_witness :
    c6Resolve c6ClassB = false
    ∧ runEmittedLoad c6Resolve c6CM
        = LoadOutcome.mk
            (joinL (((c6ClassA, c6MethodsA) :: []).map (fun e => e.2.map (fun m => (e.1, m.1, m.2)))))
            (failMsg c6ClassB :: []) jniErrLit :=
  ⟨by decide,
   (c6_emitted_loader c6CM helperDefault c6Resolve).2.2 ((c6ClassA, c6MethodsA) :: [])
     c6ClassB c6MethodsB [] rfl (by decide) (by decide)⟩
